import Mathlib

/-
  Verification development for the SwarScript repository (Indian Classical
  Music notation engine).  The Python sources `notation_engine.py`,
  `taal_definitions.py` and `beat_grid.py` are shallowly embedded below:
  Python strings are `List Char`, Python ints are `Int`, and fallible
  constructors (which raise `ValueError`) are `Except (List Char) _`.
  Python string helpers (`.strip()`, `.split()`, `.upper()`, `.replace`,
  `in`, `int(...)`) are modelled for their ASCII behaviour, which covers
  the whole input domain the program works over.

  Name mapping (some source names are renamed to the spec names used in
  spec.md): `Note.to_notation` is `Note.render`, `generate_notation_sequence`
  is `render_sequence`, `MatraCell.rendered_notation` is `MatraCell.rendered`,
  `BeatGrid.get_rendered_notation` is `BeatGrid.rendered_line`, and
  `BeatGrid.get_filled_count` is `BeatGrid.filled_count`.
-/

deriving instance DecidableEq for Except

namespace SwarScript

/-! ### Python string primitives -/

/-- The ASCII whitespace characters Python `str.split()` / `str.strip()`
use: space, tab, newline, carriage return, vertical tab, form feed. -/
def pyIsSpace (c : Char) : Bool :=
  c = ' ' || c = '\t' || c = '\n' || c = '\r' || c = (Char.ofNat 11) || c = (Char.ofNat 12)

/-- Python `str.strip()` with no argument: drop leading and trailing
whitespace. -/
def pystrip (l : List Char) : List Char :=
  ((l.dropWhile pyIsSpace).reverse.dropWhile pyIsSpace).reverse

/-- Python `str.upper()` restricted to ASCII letters (all program inputs
of interest are ASCII). -/
def pyUpper (l : List Char) : List Char := l.map Char.toUpper

/-- Worker for `splitWs`: `acc` holds the (reversed) token being read. -/
def splitWsGo (acc : List Char) : List Char → List (List Char)
  | [] => if acc = [] then [] else [acc.reverse]
  | c :: rest =>
    if pyIsSpace c then
      if acc = [] then splitWsGo [] rest else acc.reverse :: splitWsGo [] rest
    else splitWsGo (c :: acc) rest

/-- Python `str.split()` with no argument: split on runs of whitespace,
discarding empty fields. -/
def splitWs (l : List Char) : List (List Char) := splitWsGo [] l

/-- Python `pat in s` (substring containment). -/
def hasSub (pat : List Char) : List Char → Bool
  | [] => pat.isPrefixOf []
  | c :: rest => pat.isPrefixOf (c :: rest) || hasSub pat rest

/-- Fuelled worker for `removeSub` (each step consumes at least one
character, so fuel equal to the input length always suffices; the fuel
only makes the recursion structural). -/
def removeSubGo (pat : List Char) : Nat → List Char → List Char
  | _, [] => []
  | 0, l => l
  | f + 1, c :: rest =>
    if pat.isPrefixOf (c :: rest) ∧ pat ≠ [] then
      removeSubGo pat f (rest.drop (pat.length - 1))
    else
      c :: removeSubGo pat f rest

/-- Python `s.replace(pat, "")`: delete every (non-overlapping,
left-to-right) occurrence of `pat`. -/
def removeSub (pat l : List Char) : List Char := removeSubGo pat l.length l

/-- Python `c in s` for a single character. -/
def hasChar (c : Char) (l : List Char) : Bool := l.any (fun d => d = c)

/-- Python `s.split(c)` for a one-character separator: split at every
occurrence, keeping empty fields. -/
def splitOnChar (c : Char) : List Char → List (List Char)
  | [] => [[]]
  | x :: rest =>
    let r := splitOnChar c rest
    if x = c then [] :: r
    else (x :: r.headD []) :: r.tail

/-- Decimal digit character for a value below 10. -/
def digitChar (n : Nat) : Char := Char.ofNat (48 + n % 10)

/-- Fuelled decimal-digit accumulator (fuel `n` suffices for value `n`). -/
def natDigitsGo : Nat → Nat → List Char → List Char
  | 0, n, acc => digitChar n :: acc
  | f + 1, n, acc =>
    if n < 10 then digitChar n :: acc
    else natDigitsGo f (n / 10) (digitChar (n % 10) :: acc)

/-- Decimal digits of a natural number (Python `str(n)` for `n ≥ 0`). -/
def natDigits (n : Nat) : List Char := natDigitsGo n n []

/-- Python `str(i)` for an int. -/
def pyStrInt (i : Int) : List Char :=
  if i < 0 then '-' :: natDigits i.natAbs else natDigits i.natAbs

/-- Value of a non-empty all-digit run. -/
def digitsValGo (acc : Nat) : List Char → Option Nat
  | [] => some acc
  | c :: rest => if c.isDigit then digitsValGo (acc * 10 + (c.toNat - 48)) rest else none

/-- Python `int(s)` (ASCII decimal form: optional surrounding whitespace,
optional sign, then a non-empty digit run; anything else raises, modelled
as `none`). -/
def pyInt (l0 : List Char) : Option Int :=
  let l := pystrip l0
  match l with
  | [] => none
  | '+' :: rest => if rest = [] then none else (digitsValGo 0 rest).map (fun v => (v : Int))
  | '-' :: rest => if rest = [] then none else (digitsValGo 0 rest).map (fun v => -(v : Int))
  | _ => (digitsValGo 0 l).map (fun v => (v : Int))

/-- Shorthand: the character list of a string literal. -/
def strL (s : String) : List Char := s.toList

/-! ### notation_engine.py: the Note model -/

/-- Combining dot above, U+0307. -/
def cDotA : Char := Char.ofNat 0x0307
/-- Combining dot below, U+0323. -/
def cDotB : Char := Char.ofNat 0x0323
/-- Combining low line (underline), U+0332. -/
def cUnder : Char := Char.ofNat 0x0332
/-- Combining vertical line above, U+030D. -/
def cVert : Char := Char.ofNat 0x030D

/-- A swara: `Note` dataclass of `notation_engine.py`. -/
structure Note where
  base : List Char
  komal : Bool
  tivra : Bool
  octave : Int
deriving Repr, DecidableEq

/-- The seven valid base names. -/
def validBases : List (List Char) :=
  [strL "SA", strL "RE", strL "GA", strL "MA", strL "PA", strL "DHA", strL "NI"]

/-- Bases that may be komal. -/
def komalBases : List (List Char) := [strL "RE", strL "GA", strL "DHA", strL "NI"]

/-- Error message for an invalid base (from `Note.validate`). -/
def msgBase (b : List Char) : List Char :=
  strL "Invalid base note \x27" ++ b ++
  strL "\x27. Must be one of [\x27SA\x27, \x27RE\x27, \x27GA\x27, \x27MA\x27, \x27PA\x27, \x27DHA\x27, \x27NI\x27]"

/-- Error message for an illegal komal flag (from `Note.validate`). -/
def msgKomal (b : List Char) : List Char :=
  strL "\x27" ++ b ++ strL "\x27 cannot be komal. Only RE, GA, DHA, NI can be komal"

/-- Error message for an illegal tivra flag (from `Note.validate`). -/
def msgTivra (b : List Char) : List Char :=
  strL "\x27" ++ b ++ strL "\x27 cannot be tivra. Only MA can be tivra"

/-- Error message for komal and tivra together (from `Note.validate`). -/
def msgBoth : List Char := strL "Note cannot be both komal and tivra"

/-- Error message for an out-of-range octave (from `Note.validate`). -/
def msgOctave (o : Int) : List Char :=
  strL "Octave " ++ pyStrInt o ++ strL " out of range. Must be between -3 and +3"

/-- `Note.validate`: the list of error messages, in source order
(base check, komal rule, tivra rule, exclusivity, octave range); empty
iff the note is valid.  All five checks always run. -/
def Note.validate (n : Note) : List (List Char) :=
  (if n.base ∈ validBases then [] else [msgBase n.base])
  ++ (if n.komal = true ∧ n.base ∉ komalBases then [msgKomal n.base] else [])
  ++ (if n.tivra = true ∧ n.base ≠ strL "MA" then [msgTivra n.base] else [])
  ++ (if n.komal = true ∧ n.tivra = true then [msgBoth] else [])
  ++ (if -3 ≤ n.octave ∧ n.octave ≤ 3 then [] else [msgOctave n.octave])

/-- `Note.__post_init__` / constructor: uppercase the base, validate, and
either produce the note or raise a single `ValueError` whose message joins
every violated rule's message with a comma. -/
def mkNote (base : List Char) (komal tivra : Bool) (octave : Int) : Except (List Char) Note :=
  let n : Note := ⟨pyUpper base, komal, tivra, octave⟩
  if Note.validate n = [] then Except.ok n
  else Except.error (strL "Invalid note: " ++ List.intercalate (strL ", ") (Note.validate n))

/-- `Note.to_notation` (spec name `render`): the glyph string.
Step 1 appends an underline after every character if komal; step 2 puts a
vertical line above after the first character if tivra (the source indexes
`result[0]`, which would raise on an empty string — unreachable for
validated notes, modelled as the identity); step 3 appends the octave dots
after the last character (`result[:-1] + result[-1] + dots` is `result ++ dots`). -/
def Note.render (n : Note) : List Char :=
  let r1 := if n.komal then ((n.base.map (fun c => [c, cUnder])).flatten) else n.base
  let r2 := if n.tivra then
      match r1 with
      | [] => []
      | c :: rest => c :: cVert :: rest
    else r1
  if 0 < n.octave then r2 ++ List.replicate n.octave.toNat cDotA
  else if n.octave < 0 then r2 ++ List.replicate n.octave.natAbs cDotB
  else r2

/-! ### notation_engine.py: NotationParser -/

/-- First stage of `NotationParser.parse_note_spec`: detect and delete the
komal marker `_K`, then the tivra marker `_T` (the input is already
stripped and uppercased by the caller). Returns the remaining text and
the two flags. -/
def stripMarkers (spec : List Char) : List Char × Bool × Bool :=
  let komal := hasSub (strL "_K") spec
  let spec1 := if komal then removeSub (strL "_K") spec else spec
  let tivra := hasSub (strL "_T") spec1
  let spec2 := if tivra then removeSub (strL "_T") spec1 else spec1
  (spec2, komal, tivra)

/-- Octave stage of `NotationParser.parse_note_spec`: if `+` occurs,
split on `+` and parse the second field (default 1); else if exactly one
`-` occurs, split on `-` and parse the negated second field (default -1);
else octave 0 and the text is left alone. -/
def parseOctave (spec : List Char) : List Char × Int :=
  if hasChar '+' spec then
    let parts := splitOnChar '+' spec
    (parts.headD [],
      match parts[1]? with
      | some seg => (pyInt seg).getD 1
      | none => 1)
  else if hasChar '-' spec ∧ spec.count '-' = 1 then
    let parts := splitOnChar '-' spec
    (parts.headD [],
      match parts[1]? with
      | some seg =>
        match pyInt seg with
        | some v => -v
        | none => -1
      | none => -1)
  else (spec, 0)

/-- `NotationParser.parse_note_spec`: strip, uppercase, extract markers,
extract octave; returns `(base, komal, tivra, octave)`. -/
def parse_note_spec (s : List Char) : List Char × Bool × Bool × Int :=
  let sm := stripMarkers (pyUpper (pystrip s))
  let po := parseOctave sm.1
  (po.1, sm.2.1, sm.2.2, po.2)

/-- `NotationParser.generate_notation_sequence` (spec name
`render_sequence`): join individual renders with the separator. -/
def render_sequence (notes : List Note) (sep : List Char) : List Char :=
  List.intercalate sep (notes.map Note.render)

/-- Loop body of `NotationParser.parse_sequence`: empty parts are skipped
(`if not part: continue`), a token whose parse-and-construct raises
`ValueError` is skipped, successful notes are kept in order. -/
def parseSeqGo : List (List Char) → List Note
  | [] => []
  | p :: rest =>
    if p = [] then parseSeqGo rest
    else
      match mkNote (parse_note_spec p).1 (parse_note_spec p).2.1
              (parse_note_spec p).2.2.1 (parse_note_spec p).2.2.2 with
      | Except.ok n => n :: parseSeqGo rest
      | Except.error _ => parseSeqGo rest

/-- `NotationParser.parse_sequence`: split the input on whitespace and
parse each token, skipping invalid ones. -/
def parse_sequence (s : List Char) : List Note :=
  parseSeqGo (splitWs (pystrip s))

/-- The note a single token yields, if any (the success branch of the
`parse_sequence` loop body). -/
def noteOfToken (p : List Char) : Option Note :=
  (mkNote (parse_note_spec p).1 (parse_note_spec p).2.1
     (parse_note_spec p).2.2.1 (parse_note_spec p).2.2.2).toOption

/-! ### taal_definitions.py: the Taal model -/

/-- The `Taal` dataclass: a rhythmic cycle. -/
structure Taal where
  name : List Char
  display_name : List Char
  total_matras : Int
  vibhag_structure : List Int
  sam_position : Int
  khali_positions : List Int
  tali_positions : List Int
  bols : Option (List (List Char))
deriving Repr, DecidableEq

/-- `Taal.__post_init__`: the constructor validation.  It checks (in
order) that the vibhag structure sums to `total_matras`, then that every
khali position and every tali position lies in `[1, total_matras]`,
raising `ValueError` at the first offending position.  Note it does not
check positivity of `total_matras` or of the vibhag entries. -/
def mkTaal (name dname : List Char) (total : Int) (vibhags : List Int)
    (sam : Int) (khali tali : List Int) (bols : Option (List (List Char))) :
    Except (List Char) Taal :=
  if vibhags.sum ≠ total then
    Except.error (strL "Vibhag structure does not sum to total matras " ++ pyStrInt total)
  else
    match khali.find? (fun p => decide (p < 1 ∨ total < p)) with
    | some p => Except.error (strL "Khali position " ++ pyStrInt p ++
        strL " is out of range (1-" ++ pyStrInt total ++ strL ")")
    | none =>
      match tali.find? (fun p => decide (p < 1 ∨ total < p)) with
      | some p => Except.error (strL "Tali position " ++ pyStrInt p ++
          strL " is out of range (1-" ++ pyStrInt total ++ strL ")")
      | none => Except.ok ⟨name, dname, total, vibhags, sam, khali, tali, bols⟩

/-- `Taal.is_sam`. -/
def Taal.is_sam (t : Taal) (matra : Int) : Bool := matra = t.sam_position

/-- `Taal.is_khali`. -/
def Taal.is_khali (t : Taal) (matra : Int) : Bool := t.khali_positions.contains matra

/-- `Taal.is_tali`. -/
def Taal.is_tali (t : Taal) (matra : Int) : Bool := t.tali_positions.contains matra

/-- The cumulative-sum walk of `Taal.get_vibhag_for_matra`: `i` counts
the vibhags already passed, so the fallback value reached when the list
is exhausted equals the number of vibhags, as in the source
(`return len(self.vibhag_structure)`). -/
def vibhagGo (matra : Int) : List Int → Int → Nat → Nat
  | [], _, i => i
  | c :: rest, cum, i => if matra ≤ cum + c then i + 1 else vibhagGo matra rest (cum + c) (i + 1)

/-- `Taal.get_vibhag_for_matra`: raises (`none`) when the matra is out of
`[1, total_matras]`, else the 1-indexed vibhag containing it. -/
def Taal.get_vibhag_for_matra (t : Taal) (matra : Int) : Option Nat :=
  if matra < 1 ∨ t.total_matras < matra then none
  else some (vibhagGo matra t.vibhag_structure 0 0)

/-- `Taal.get_matra_symbol`: `X` for Sam, `0` for Khali, the decimal
vibhag number for Tali, otherwise the empty string; `none` stands for the
`ValueError` the vibhag lookup would raise (only reachable when a tali
position is out of range, which `mkTaal` rules out). -/
def Taal.get_matra_symbol (t : Taal) (matra : Int) : Option (List Char) :=
  if t.is_sam matra then some ['X']
  else if t.is_khali matra then some ['0']
  else if t.is_tali matra then (t.get_vibhag_for_matra matra).map natDigits
  else some []

/-- The shipped TeenTaal catalog entry (its constructor validation
passes: `4+4+4+4 = 16` and all accents lie in `[1, 16]`). -/
def TEENTAAL : Taal :=
  ⟨strL "teentaal", strL "TeenTaal (तीनताल)", 16, [4, 4, 4, 4], 1, [9], [1, 5, 13],
   some [strL "Dha", strL "Dhin", strL "Dhin", strL "Dha",
         strL "Dha", strL "Dhin", strL "Dhin", strL "Dha",
         strL "Dha", strL "Tin", strL "Tin", strL "Ta",
         strL "Ta", strL "Dhin", strL "Dhin", strL "Dha"]⟩

/-- The shipped Dadra catalog entry. -/
def DADRA : Taal :=
  ⟨strL "dadra", strL "Dadra (दादरा)", 6, [3, 3], 1, [4], [1],
   some [strL "Dha", strL "Dhin", strL "Na", strL "Dha", strL "Tin", strL "Na"]⟩

/-- The shipped Rupak catalog entry (its Sam position 1 is also listed as
a khali position). -/
def RUPAK : Taal :=
  ⟨strL "rupak", strL "Rupak (रूपक)", 7, [3, 2, 2], 1, [1], [4, 6],
   some [strL "Tin", strL "Tin", strL "Na", strL "Dhi", strL "Na", strL "Dhi", strL "Na"]⟩

/-! ### beat_grid.py: MatraCell and BeatGrid -/

/-- The `MatraCell` dataclass (`rendered` is the source field
`rendered_notation`). -/
structure MatraCell where
  matra_number : Int
  vibhag_number : Int
  is_sam : Bool
  is_khali : Bool
  is_tali : Bool
  symbol : List Char
  swars : List (List Char)
  rendered : List Char
deriving Repr, DecidableEq

/-- Per-token rendering inside `MatraCell._render_notation`: the
continuation marker `-` is kept literally; otherwise the token is parsed
as a note sequence, and rendered when at least one note results,
falling back to the raw token when zero notes result.  (The source also
catches any exception with the same raw fallback; no exception is
reachable, since `parse_sequence` already swallows `ValueError`.) -/
def renderTok (sw : List Char) : List Char :=
  if sw = strL "-" then strL "-"
  else
    match parse_sequence sw with
    | [] => sw
    | ns => render_sequence ns [' ']

/-- `MatraCell._render_notation`: recompute the rendered cache from
`swars` (empty swars give the empty string; otherwise the per-token
renders joined by a single space). -/
def MatraCell.recompute (c : MatraCell) : MatraCell :=
  if c.swars = [] then { c with rendered := [] }
  else { c with rendered := List.intercalate [' '] (c.swars.map renderTok) }

/-- `MatraCell.set_swars`: `-` (after trimming) gives the single
continuation token, non-blank text gives its whitespace-split tokens,
blank text empties the cell; the rendered cache is recomputed in the
same call. -/
def MatraCell.set_swars (c : MatraCell) (input : List Char) : MatraCell :=
  let sw := if pystrip input = strL "-" then [strL "-"]
            else if pystrip input ≠ [] then splitWs (pystrip input)
            else []
  MatraCell.recompute { c with swars := sw }

/-- `MatraCell.get_display_text`: the rendered cache if truthy else the
empty string — which is the rendered cache either way. -/
def MatraCell.display (c : MatraCell) : List Char := c.rendered

/-- A fresh cell of `BeatGrid._initialize_grid` (empty swars, accent data
derived from the taal; the symbol lookup is total for any taal accepted
by `mkTaal`, and `.getD []` stands for the unreachable exception case). -/
def mkCell (t : Taal) (v : Nat) (m : Int) : MatraCell :=
  ⟨m, (v : Int), t.is_sam m, t.is_khali m, t.is_tali m,
   (t.get_matra_symbol m).getD [], [], []⟩

/-- The cell list built by `BeatGrid._initialize_grid`: one cell per
matra, walking the vibhag structure (a non-positive vibhag count
contributes no cells, like Python `range`). -/
def mkCellsGo (t : Taal) : List Int → Nat → Int → List MatraCell
  | [], _, _ => []
  | cnt :: rest, vIdx, mNum =>
    (List.range cnt.toNat).map (fun j => mkCell t (vIdx + 1) (mNum + (j : Int)))
      ++ mkCellsGo t rest (vIdx + 1) (mNum + (cnt.toNat : Int))

/-- The `BeatGrid` class state: the taal and the cell list.  (The
`vibhags` grouping aliases the same cells and carries no extra state, so
it is not modelled separately.) -/
structure BeatGrid where
  taal : Taal
  matras : List MatraCell
deriving Repr, DecidableEq

/-- `BeatGrid.__init__` / `_initialize_grid`. -/
def BeatGrid.construct (t : Taal) : BeatGrid := ⟨t, mkCellsGo t t.vibhag_structure 0 1⟩

/-- Writing one cell of the list (Python `self.matras[i].set_swars(x)`;
an out-of-range index, which Python would turn into an `IndexError`, is
never reached because every caller bounds-checks first). -/
def setCellAt : List MatraCell → Nat → List Char → List MatraCell
  | [], _, _ => []
  | c :: cs, 0, inp => MatraCell.set_swars c inp :: cs
  | c :: cs, i + 1, inp => c :: setCellAt cs i inp

/-- `BeatGrid.set_matra_swars`: `False` (no mutation) when the matra
number is outside `[1, total_matras]`, else write the cell and `True`. -/
def BeatGrid.set_matra_swars (g : BeatGrid) (matra_number : Int) (input : List Char) :
    Bool × BeatGrid :=
  if matra_number < 1 ∨ g.taal.total_matras < matra_number then (false, g)
  else (true, { g with matras := setCellAt g.matras (matra_number - 1).toNat input })

/-- `BeatGrid.clear_grid`: empty every cell and its rendered cache. -/
def clearCell (c : MatraCell) : MatraCell := { c with swars := [], rendered := [] }

/-- `BeatGrid.clear_grid`. -/
def BeatGrid.clear_grid (g : BeatGrid) : BeatGrid := { g with matras := g.matras.map clearCell }

/-- The fill loop of `BeatGrid.fill_from_sequence`
(`for i, swar in enumerate(parts): if i < total: matras[i].set_swars(swar)`). -/
def fillGo (total : Int) : Nat → List MatraCell → List (List Char) → List MatraCell
  | _, cells, [] => cells
  | i, cells, p :: ps =>
    if (i : Int) < total then fillGo total (i + 1) (setCellAt cells i p) ps
    else fillGo total (i + 1) cells ps

/-- `BeatGrid.fill_from_sequence`: clear the grid, split the text, fail
when there are more tokens than matras (grid stays cleared), otherwise
assign tokens to the leading cells. -/
def BeatGrid.fill_from_sequence (g : BeatGrid) (s : List Char) :
    (Bool × List Char) × BeatGrid :=
  let g1 := g.clear_grid
  let parts := splitWs (pystrip s)
  if parts = [] then ((true, strL "Grid cleared"), g1)
  else if g.taal.total_matras < (parts.length : Int) then
    ((false, strL "Too many swars (" ++ pyStrInt (parts.length : Int) ++ strL ") for "
        ++ g.taal.display_name ++ strL " (" ++ pyStrInt g.taal.total_matras ++ strL " matras)"), g1)
  else
    ((true, strL "Filled " ++ pyStrInt (parts.length : Int) ++ strL " matras"),
     { g1 with matras := fillGo g.taal.total_matras 0 g1.matras parts })

/-- `BeatGrid.get_rendered_notation` (spec name `rendered_line`): one
field per beat, the cell display text or `-` for an empty one, joined by
single spaces. -/
def BeatGrid.rendered_line (g : BeatGrid) : List Char :=
  List.intercalate [' ']
    (g.matras.map (fun c => if c.display = [] then strL "-" else c.display))

/-- `BeatGrid.get_filled_count`: the number of cells with swars. -/
def BeatGrid.filled_count (g : BeatGrid) : Nat :=
  g.matras.countP (fun c => !c.swars.isEmpty)

/-! ### Spec-side definitions, used to compare the code against the
claims that restate an algorithm in words -/

/-- The rendering algorithm exactly as the specification words it:
the base characters; if komal an underline after every character; if
tivra one vertical mark inserted after the first character only; if the
octave is nonzero, `abs(octave)` dots appended after the last character
(above for positive, below for negative). -/
def renderSpecC2 (n : Note) : List Char :=
  let s1 := if n.komal then n.base.flatMap (fun c => [c, cUnder]) else n.base
  let s2 := if n.tivra then s1.take 1 ++ cVert :: s1.drop 1 else s1
  if n.octave ≠ 0 then
    s2 ++ List.replicate n.octave.natAbs (if 0 < n.octave then cDotA else cDotB)
  else s2

/-- The cell content exactly as claim C5 words it: trimmed `-` gives the
single continuation token, non-blank trimmed text gives its
whitespace-split tokens, blank gives the empty sequence. -/
def swarsSpecC5 (input : List Char) : List (List Char) :=
  if pystrip input = strL "-" then [strL "-"]
  else if pystrip input ≠ [] then splitWs (pystrip input)
  else []

/-- Per-token rendering exactly as claim C5 words it: the continuation
marker renders as the literal `-`; a token whose parse yields at least
one note renders as the rendered note sequence; a token whose parse
yields zero notes is kept verbatim. -/
def renderTokSpecC5 (t : List Char) : List Char :=
  if t = strL "-" then strL "-"
  else
    match parse_sequence t with
    | [] => t
    | ns => List.intercalate [' '] (ns.map Note.render)

/-- The octave suffixes of the documented grammar whose value is an
in-range octave: none, or a sign and one digit 0-3. -/
def octaveSufs : List (List Char × Int) :=
  [([], 0)]
    ++ ((List.range 4).map (fun d => ('+' :: natDigits d, (d : Int))))
    ++ ((List.range 4).map (fun d => ('-' :: natDigits d, -(d : Int))))

/-- The legal modifiers of the documented grammar for a given base:
none always; `_K` when the base can be komal; `_T` when it is MA. -/
def modsFor (b : List Char) : List (List Char × Bool × Bool) :=
  [([], false, false)]
    ++ (if b ∈ komalBases then [(strL "_K", true, false)] else [])
    ++ (if b = strL "MA" then [(strL "_T", false, true)] else [])

/-- Every text of the documented grammar: a valid base, an optional
single legal modifier, an optional octave suffix with in-range value.
Each entry is `(text, base, komal, tivra, octave)` pairing the text with
the explicit fields it denotes. -/
def grammarCases : List (List Char × List Char × Bool × Bool × Int) :=
  validBases.flatMap (fun b =>
    (modsFor b).flatMap (fun md =>
      octaveSufs.map (fun sf => (b ++ md.1 ++ sf.1, b, md.2.1, md.2.2, sf.2))))

/-- The rendered string of a construction result, when it succeeded. -/
def renderOfResult (r : Except (List Char) Note) : Option (List Char) :=
  r.toOption.map Note.render

/-! ### Helper lemmas -/

theorem ite_nil_eq_nil_iff {α : Type} (c : Prop) [Decidable c] (m : α) :
    (if c then ([] : List α) else [m]) = [] ↔ c := by
  split <;> simp_all

theorem ite_sing_eq_nil_iff {α : Type} (c : Prop) [Decidable c] (m : α) :
    (if c then [m] else ([] : List α)) = [] ↔ ¬c := by
  split <;> simp_all

theorem mem_ite_nil_left {x m : List Char} {c : Prop} [Decidable c] :
    (x ∈ if c then ([] : List (List Char)) else [m]) ↔ ¬c ∧ x = m := by
  split <;> simp_all

theorem mem_ite_nil_right {x m : List Char} {c : Prop} [Decidable c] :
    (x ∈ if c then [m] else ([] : List (List Char))) ↔ c ∧ x = m := by
  split <;> simp_all

theorem head?_msgBase (b : List Char) : (msgBase b).head? = some 'I' := rfl

theorem head?_msgKomal (b : List Char) : (msgKomal b).head? = some '\x27' := rfl

theorem head?_msgTivra (b : List Char) : (msgTivra b).head? = some '\x27' := rfl

theorem head?_msgBoth : msgBoth.head? = some 'N' := rfl

theorem head?_msgOctave (o : Int) : (msgOctave o).head? = some 'O' := rfl

theorem ne_of_head?_ne {l1 l2 : List Char} (h : l1.head? ≠ l2.head?) : l1 ≠ l2 :=
  fun e => h (e ▸ rfl)

theorem msgBase_ne_komal (b b' : List Char) : msgBase b ≠ msgKomal b' :=
  ne_of_head?_ne (by rw [head?_msgBase, head?_msgKomal]; decide)

theorem msgBase_ne_tivra (b b' : List Char) : msgBase b ≠ msgTivra b' :=
  ne_of_head?_ne (by rw [head?_msgBase, head?_msgTivra]; decide)

theorem msgBase_ne_both (b : List Char) : msgBase b ≠ msgBoth :=
  ne_of_head?_ne (by rw [head?_msgBase, head?_msgBoth]; decide)

theorem msgBase_ne_octave (b : List Char) (o : Int) : msgBase b ≠ msgOctave o :=
  ne_of_head?_ne (by rw [head?_msgBase, head?_msgOctave]; decide)

theorem msgKomal_ne_both (b : List Char) : msgKomal b ≠ msgBoth :=
  ne_of_head?_ne (by rw [head?_msgKomal, head?_msgBoth]; decide)

theorem msgKomal_ne_octave (b : List Char) (o : Int) : msgKomal b ≠ msgOctave o :=
  ne_of_head?_ne (by rw [head?_msgKomal, head?_msgOctave]; decide)

theorem msgTivra_ne_both (b : List Char) : msgTivra b ≠ msgBoth :=
  ne_of_head?_ne (by rw [head?_msgTivra, head?_msgBoth]; decide)

theorem msgTivra_ne_octave (b : List Char) (o : Int) : msgTivra b ≠ msgOctave o :=
  ne_of_head?_ne (by rw [head?_msgTivra, head?_msgOctave]; decide)

theorem msgBoth_ne_octave (o : Int) : msgBoth ≠ msgOctave o :=
  ne_of_head?_ne (by rw [head?_msgBoth, head?_msgOctave]; decide)

theorem msgKomal_ne_tivra (b : List Char) : msgKomal b ≠ msgTivra b := by
  intro h
  unfold msgKomal msgTivra at h
  have h2 := List.append_cancel_left h
  exact absurd h2 (by decide)

/-- Unfolding of `mkNote` with its let inlined. -/
theorem mkNote_eq (b : List Char) (k t : Bool) (o : Int) :
    mkNote b k t o =
      if Note.validate ⟨pyUpper b, k, t, o⟩ = [] then Except.ok ⟨pyUpper b, k, t, o⟩
      else Except.error (strL "Invalid note: " ++
        List.intercalate (strL ", ") (Note.validate ⟨pyUpper b, k, t, o⟩)) := rfl

/-- `Note.validate` is empty exactly when all five rules hold. -/
theorem validate_eq_nil_iff (n : Note) :
    n.validate = [] ↔
      (n.base ∈ validBases ∧ ¬(n.komal = true ∧ n.base ∉ komalBases) ∧
       ¬(n.tivra = true ∧ n.base ≠ strL "MA") ∧ ¬(n.komal = true ∧ n.tivra = true) ∧
       (-3 ≤ n.octave ∧ n.octave ≤ 3)) := by
  unfold Note.validate
  simp only [List.append_eq_nil, ite_nil_eq_nil_iff, ite_sing_eq_nil_iff]
  tauto

theorem mem_validate_base (n : Note) :
    msgBase n.base ∈ n.validate ↔ n.base ∉ validBases := by
  unfold Note.validate
  simp only [List.mem_append, mem_ite_nil_left, mem_ite_nil_right]
  simp [msgBase_ne_komal, msgBase_ne_tivra, msgBase_ne_both, msgBase_ne_octave]

theorem mem_validate_komal (n : Note) :
    msgKomal n.base ∈ n.validate ↔ (n.komal = true ∧ n.base ∉ komalBases) := by
  unfold Note.validate
  simp only [List.mem_append, mem_ite_nil_left, mem_ite_nil_right]
  simp [(msgBase_ne_komal n.base n.base).symm, msgKomal_ne_tivra,
        msgKomal_ne_both, msgKomal_ne_octave]

theorem mem_validate_tivra (n : Note) :
    msgTivra n.base ∈ n.validate ↔ (n.tivra = true ∧ n.base ≠ strL "MA") := by
  unfold Note.validate
  simp only [List.mem_append, mem_ite_nil_left, mem_ite_nil_right]
  simp [(msgBase_ne_tivra n.base n.base).symm, (msgKomal_ne_tivra n.base).symm,
        msgTivra_ne_both, msgTivra_ne_octave]

theorem mem_validate_both (n : Note) :
    msgBoth ∈ n.validate ↔ (n.komal = true ∧ n.tivra = true) := by
  unfold Note.validate
  simp only [List.mem_append, mem_ite_nil_left, mem_ite_nil_right]
  simp [(msgBase_ne_both n.base).symm, (msgKomal_ne_both n.base).symm,
        (msgTivra_ne_both n.base).symm, msgBoth_ne_octave]

theorem mem_validate_octave (n : Note) :
    msgOctave n.octave ∈ n.validate ↔ ¬(-3 ≤ n.octave ∧ n.octave ≤ 3) := by
  unfold Note.validate
  simp only [List.mem_append, mem_ite_nil_left, mem_ite_nil_right]
  simp [(msgBase_ne_octave n.base n.octave).symm, (msgKomal_ne_octave n.base n.octave).symm,
        (msgTivra_ne_octave n.base n.octave).symm, (msgBoth_ne_octave n.octave).symm]

/-! ### Claim C1 -/

/-- C1: a Note construction call uppercases the base first and succeeds
exactly when the base is one of the 7 valid names, komal implies the base
is one of RE, GA, DHA, NI, tivra implies the base is MA, komal and tivra
are not both set, and the octave lies in [-3, 3]; on violation it
produces no note and raises a single error joining the message of every
violated rule (each rule's message appears in the list exactly when that
rule is violated, so all checks are evaluated). -/
theorem C1_note_construction (b : List Char) (k t : Bool) (o : Int) :
    (mkNote b k t o = Except.ok ⟨pyUpper b, k, t, o⟩ ↔
      (pyUpper b ∈ validBases ∧ (k = true → pyUpper b ∈ komalBases) ∧
       (t = true → pyUpper b = strL "MA") ∧ ¬(k = true ∧ t = true) ∧
       (-3 ≤ o ∧ o ≤ 3)))
  ∧ (∀ n, mkNote b k t o = Except.ok n → n = ⟨pyUpper b, k, t, o⟩)
  ∧ (Note.validate ⟨pyUpper b, k, t, o⟩ ≠ [] →
      mkNote b k t o = Except.error (strL "Invalid note: " ++
        List.intercalate (strL ", ") (Note.validate ⟨pyUpper b, k, t, o⟩)))
  ∧ (msgBase (pyUpper b) ∈ Note.validate ⟨pyUpper b, k, t, o⟩ ↔ pyUpper b ∉ validBases)
  ∧ (msgKomal (pyUpper b) ∈ Note.validate ⟨pyUpper b, k, t, o⟩ ↔
      (k = true ∧ pyUpper b ∉ komalBases))
  ∧ (msgTivra (pyUpper b) ∈ Note.validate ⟨pyUpper b, k, t, o⟩ ↔
      (t = true ∧ pyUpper b ≠ strL "MA"))
  ∧ (msgBoth ∈ Note.validate ⟨pyUpper b, k, t, o⟩ ↔ (k = true ∧ t = true))
  ∧ (msgOctave o ∈ Note.validate ⟨pyUpper b, k, t, o⟩ ↔ ¬(-3 ≤ o ∧ o ≤ 3)) := by
  refine ⟨?_, ?_, ?_, ?_, ?_, ?_, ?_, ?_⟩
  · rw [mkNote_eq]
    constructor
    · intro h
      split at h
      · rename_i hv
        have := (validate_eq_nil_iff ⟨pyUpper b, k, t, o⟩).1 hv
        simp only at this
        tauto
      · exact absurd h (by simp)
    · intro h
      have hv : Note.validate ⟨pyUpper b, k, t, o⟩ = [] := by
        rw [validate_eq_nil_iff]
        simp only
        tauto
      simp [hv]
  · intro n h
    rw [mkNote_eq] at h
    split at h
    · exact (Except.ok.inj h).symm
    · exact absurd h (by simp)
  · intro hne
    rw [mkNote_eq]
    simp [hne]
  · exact mem_validate_base ⟨pyUpper b, k, t, o⟩
  · exact mem_validate_komal ⟨pyUpper b, k, t, o⟩
  · exact mem_validate_tivra ⟨pyUpper b, k, t, o⟩
  · exact mem_validate_both ⟨pyUpper b, k, t, o⟩
  · exact mem_validate_octave ⟨pyUpper b, k, t, o⟩

/-- C1 witness: the construction call `Note("pa", komal=True, tivra=True,
octave=5)` violates the komal, tivra, exclusivity and octave rules and
raises the single aggregated error. -/
theorem C1_note_construction_witness :
    Note.validate ⟨strL "PA", true, true, 5⟩ ≠ [] ∧
    mkNote (strL "pa") true true 5 = Except.error (strL "Invalid note: " ++
      List.intercalate (strL ", ") (Note.validate ⟨strL "PA", true, true, 5⟩)) := by
  have h := (C1_note_construction (strL "pa") true true 5).2.2.1
  exact ⟨by decide, h (by decide)⟩

/-! ### Claim C2 -/

/-- A valid note's base is one of the seven names, hence non-empty. -/
theorem base_ne_nil_of_valid (n : Note) (h : n.validate = []) : n.base ≠ [] := by
  have hb : n.base ∈ validBases := ((validate_eq_nil_iff n).1 h).1
  have : ∀ x ∈ validBases, x ≠ [] := by decide
  exact this _ hb

/-- C2: for every valid note, the rendered string is exactly the
spec-described mark application — base characters, komal underlines after
every character, the tivra mark after the first character only, then
`abs(octave)` octave dots appended at the very end, in that fixed order;
in particular `Note("MA", tivra=True, octave=2)` renders as
`M U+030D A U+0307 U+0307`. -/
theorem C2_render_spec (n : Note) (h : n.validate = []) :
    Note.render n = renderSpecC2 n := by
  obtain ⟨c, bs, hcons⟩ := List.exists_cons_of_ne_nil (base_ne_nil_of_valid n h)
  unfold Note.render renderSpecC2
  rcases lt_trichotomy n.octave 0 with ho | ho | ho
  · have h1 : ¬0 < n.octave := by omega
    have h2 : n.octave ≠ 0 := by omega
    rcases hk : n.komal <;> rcases ht : n.tivra <;>
      simp [hcons, h1, ho, h2, List.flatMap]
  · rcases hk : n.komal <;> rcases ht : n.tivra <;>
      simp [hcons, ho, List.flatMap]
  · have h2 : n.octave ≠ 0 := by omega
    have h3 : n.octave.toNat = n.octave.natAbs := by omega
    rcases hk : n.komal <;> rcases ht : n.tivra <;>
      simp [hcons, ho, h2, h3, List.flatMap]

/-- C2 witness: the concrete MA-tivra-octave-2 scenario from the claim. -/
theorem C2_render_spec_witness :
    Note.validate ⟨strL "MA", false, true, 2⟩ = [] ∧
    Note.render ⟨strL "MA", false, true, 2⟩ = renderSpecC2 ⟨strL "MA", false, true, 2⟩ ∧
    Note.render ⟨strL "MA", false, true, 2⟩ = ['M', cVert, 'A', cDotA, cDotA] := by
  exact ⟨by decide, C2_render_spec ⟨strL "MA", false, true, 2⟩ (by decide), by decide⟩

/-! ### Claim C3 -/

/-- C3: for every taal and every beat in `[1, total_matras]`, the matra
symbol follows the fixed precedence Sam over Khali over Tali over
nothing: `X` at the sam position (even if that beat is also khali or
tali), else `0` on a khali beat, else the decimal vibhag number on a
tali beat, else the empty string; and the shipped TeenTaal gives
`X`, `0`, `2`, `` at beats 1, 9, 5, 16, while the shipped Rupak (whose
khali set contains its sam beat 1) still shows `X` at beat 1. -/
theorem C3_symbol_precedence :
    (∀ (t : Taal) (m : Int), 1 ≤ m → m ≤ t.total_matras →
      (m = t.sam_position → t.get_matra_symbol m = some ['X'])
      ∧ (m ≠ t.sam_position → m ∈ t.khali_positions → t.get_matra_symbol m = some ['0'])
      ∧ (m ≠ t.sam_position → m ∉ t.khali_positions → m ∈ t.tali_positions →
          ∃ v, t.get_vibhag_for_matra m = some v ∧ t.get_matra_symbol m = some (natDigits v))
      ∧ (m ≠ t.sam_position → m ∉ t.khali_positions → m ∉ t.tali_positions →
          t.get_matra_symbol m = some []))
  ∧ TEENTAAL.get_matra_symbol 1 = some ['X']
  ∧ TEENTAAL.get_matra_symbol 9 = some ['0']
  ∧ TEENTAAL.get_matra_symbol 5 = some ['2']
  ∧ TEENTAAL.get_matra_symbol 16 = some []
  ∧ RUPAK.get_matra_symbol 1 = some ['X'] := by
  refine ⟨?_, by decide, by decide, by decide, by decide, by decide⟩
  intro t m h1 h2
  have hrange : ¬(m < 1 ∨ t.total_matras < m) := by omega
  refine ⟨?_, ?_, ?_, ?_⟩
  · intro hs
    simp [Taal.get_matra_symbol, Taal.is_sam, hs]
  · intro hs hk
    simp [Taal.get_matra_symbol, Taal.is_sam, Taal.is_khali, hs, hk]
  · intro hs hk ht
    refine ⟨vibhagGo m t.vibhag_structure 0 0, ?_, ?_⟩
    · simp [Taal.get_vibhag_for_matra, hrange]
    · simp [Taal.get_matra_symbol, Taal.is_sam, Taal.is_khali, Taal.is_tali,
            Taal.get_vibhag_for_matra, hs, hk, ht, hrange]
  · intro hs hk ht
    simp [Taal.get_matra_symbol, Taal.is_sam, Taal.is_khali, Taal.is_tali, hs, hk, ht]

/-- C3 witness: the general precedence statement applied to the shipped
Dadra at its khali beat 4. -/
theorem C3_symbol_precedence_witness :
    DADRA.get_matra_symbol 4 = some ['0'] := by
  have h := (C3_symbol_precedence.1 DADRA 4 (by decide) (by decide)).2.1
  exact h (by decide) (by decide)

/-! ### Claim C8 -/

/-- C8 counterexample: Taal construction does not require positivity.
`Taal(total_matras=0, vibhag_structure=[])` and even
`Taal(total_matras=0, vibhag_structure=[1, -1])` pass `__post_init__`
(the sums match and there are no accent positions to range-check), so a
Taal with non-positive `total_matras` and a non-positive vibhag entry is
successfully constructed, contrary to the claim that such construction
attempts fail. -/
theorem C8_counterexample :
    mkTaal (strL "x") (strL "x") 0 [] 1 [] [] none
      = Except.ok ⟨strL "x", strL "x", 0, [], 1, [], [], none⟩
  ∧ mkTaal (strL "y") (strL "y") 0 [1, -1] 1 [] [] none
      = Except.ok ⟨strL "y", strL "y", 0, [1, -1], 1, [], [], none⟩ := by
  constructor <;> decide

/-- C8 amended: Taal construction succeeds exactly when the vibhag
structure sums to `total_matras` and every khali and tali position lies
in `[1, total_matras]`; positivity of `total_matras` and of the vibhag
entries is not checked (so e.g. a zero-beat Taal with an empty vibhag
structure constructs successfully). -/
theorem C8_taal_validation (name dname : List Char) (total : Int) (vibhags : List Int)
    (sam : Int) (khali tali : List Int) (bols : Option (List (List Char))) :
    (∃ t, mkTaal name dname total vibhags sam khali tali bols = Except.ok t) ↔
      (vibhags.sum = total ∧ (∀ p ∈ khali, 1 ≤ p ∧ p ≤ total) ∧
       (∀ p ∈ tali, 1 ≤ p ∧ p ≤ total)) := by
  unfold mkTaal
  constructor
  · rintro ⟨t, ht⟩
    split at ht
    · exact absurd ht (by simp)
    · rename_i hsum
      split at ht
      · exact absurd ht (by simp)
      · rename_i hk
        split at ht
        · exact absurd ht (by simp)
        · rename_i hta
          have hk2 := List.find?_eq_none.1 hk
          have hta2 := List.find?_eq_none.1 hta
          refine ⟨by omega, ?_, ?_⟩
          · intro p hp
            have := hk2 p hp
            simp at this
            omega
          · intro p hp
            have := hta2 p hp
            simp at this
            omega
  · rintro ⟨hsum, hk, hta⟩
    have h1 : ¬vibhags.sum ≠ total := by omega
    have h2 : khali.find? (fun p => decide (p < 1 ∨ total < p)) = none := by
      rw [List.find?_eq_none]
      intro p hp
      have := hk p hp
      simp
      omega
    have h3 : tali.find? (fun p => decide (p < 1 ∨ total < p)) = none := by
      rw [List.find?_eq_none]
      intro p hp
      have := hta p hp
      simp
      omega
    simp only [Bool.decide_or] at h2 h3
    exact ⟨⟨name, dname, total, vibhags, sam, khali, tali, bols⟩, by simp [h1, h2, h3]⟩

/-! ### Claim C6 -/

theorem hasChar_eq_true_iff (c : Char) (l : List Char) : hasChar c l = true ↔ c ∈ l := by
  simp [hasChar, List.any_eq_true]

theorem hasChar_eq_false (c : Char) (l : List Char) (h : c ∉ l) : hasChar c l = false := by
  rw [← Bool.not_eq_true, hasChar_eq_true_iff]
  exact h

theorem splitOnChar_of_not_mem (c : Char) (l : List Char) (h : c ∉ l) :
    splitOnChar c l = [l] := by
  induction l with
  | nil => rfl
  | cons x rest ih =>
    have hx : x ≠ c := fun e => h (e ▸ List.mem_cons_self x rest)
    have hr : c ∉ rest := fun e => h (List.mem_cons_of_mem x e)
    simp [splitOnChar, hx, ih hr]

theorem splitOnChar_split (c : Char) (pre suf : List Char)
    (hp : c ∉ pre) (hs : c ∉ suf) :
    splitOnChar c (pre ++ c :: suf) = [pre, suf] := by
  induction pre with
  | nil => simp [splitOnChar, splitOnChar_of_not_mem c suf hs]
  | cons x pre ih =>
    have hx : x ≠ c := fun e => hp (e ▸ List.mem_cons_self x pre)
    have hp2 : c ∉ pre := fun e => hp (List.mem_cons_of_mem x e)
    simp [splitOnChar, hx, ih hp2]

/-- In `parse_note_spec`, the returned base is the first component of
the octave stage and the returned octave its second, applied to the
marker-stripped text. -/
theorem parse_note_spec_proj (s : List Char) :
    (parse_note_spec s).1 = (parseOctave ((stripMarkers (pyUpper (pystrip s))).1)).1
  ∧ (parse_note_spec s).2.2.2 = (parseOctave ((stripMarkers (pyUpper (pystrip s))).1)).2 :=
  ⟨rfl, rfl⟩

/-- C6 amended: after uppercasing and stripping the komal/tivra markers,
a `+`-suffix is recognized as an upward octave whose value is the parsed
digits (default 1 when absent or unparsable); a `-`-suffix is recognized
as a downward octave (default -1 when unparsable) only when exactly one
`-` occurs in the remaining text AND no `+` occurs (a `+` anywhere takes
precedence and is handled by the `+` rule); when the remaining text has
no `+` and more than one `-`, no octave suffix is extracted, the octave
stays 0 and the dashes remain in the returned base text. -/
theorem C6_octave_suffix (s pre suf : List Char) :
    ((stripMarkers (pyUpper (pystrip s))).1 = pre ++ '+' :: suf → '+' ∉ pre → '+' ∉ suf →
       (parse_note_spec s).1 = pre ∧ (parse_note_spec s).2.2.2 = (pyInt suf).getD 1)
  ∧ ((stripMarkers (pyUpper (pystrip s))).1 = pre ++ '-' :: suf → '-' ∉ pre → '-' ∉ suf →
       '+' ∉ (stripMarkers (pyUpper (pystrip s))).1 →
       (parse_note_spec s).1 = pre ∧
       (parse_note_spec s).2.2.2 = (match pyInt suf with | some v => -v | none => -1))
  ∧ ('+' ∉ (stripMarkers (pyUpper (pystrip s))).1 →
       2 ≤ ((stripMarkers (pyUpper (pystrip s))).1.count '-') →
       (parse_note_spec s).1 = (stripMarkers (pyUpper (pystrip s))).1 ∧
       (parse_note_spec s).2.2.2 = 0) := by
  obtain ⟨hp1, hp2⟩ := parse_note_spec_proj s
  refine ⟨?_, ?_, ?_⟩
  · intro hm hpre hsuf
    rw [hp1, hp2, hm]
    have hplus : hasChar '+' (pre ++ '+' :: suf) = true := by
      rw [hasChar_eq_true_iff]
      simp
    unfold parseOctave
    rw [hplus]
    simp only [if_true]
    rw [splitOnChar_split '+' pre suf hpre hsuf]
    simp
  · intro hm hpre hsuf hplus
    rw [hp1, hp2, hm]
    rw [hm] at hplus
    have h1 : hasChar '+' (pre ++ '-' :: suf) = false := hasChar_eq_false _ _ hplus
    have h2 : hasChar '-' (pre ++ '-' :: suf) = true := by
      rw [hasChar_eq_true_iff]
      simp
    have h3 : (pre ++ '-' :: suf).count '-' = 1 := by
      rw [List.count_append]
      rw [List.count_eq_zero.2 hpre]
      rw [List.count_cons_self]
      rw [List.count_eq_zero.2 hsuf]
    unfold parseOctave
    rw [h1]
    simp only [Bool.false_eq_true, if_false, h2, h3]
    simp only [and_self, if_true]
    rw [splitOnChar_split '-' pre suf hpre hsuf]
    simp
  · intro hplus hcount
    rw [hp1, hp2]
    have h1 : hasChar '+' ((stripMarkers (pyUpper (pystrip s))).1) = false :=
      hasChar_eq_false _ _ hplus
    have h2 : ¬((stripMarkers (pyUpper (pystrip s))).1.count '-' = 1) := by omega
    unfold parseOctave
    rw [h1]
    simp [h2]

/-- C6 counterexample: for input `GA--+2` the marker-stripped text
`GA--+2` contains more than one `-`, yet the parsed octave is 2, not 0,
because the `+` branch runs first — refuting the claim that with more
than one `-` the octave always stays 0. -/
theorem C6_counterexample :
    2 ≤ ((stripMarkers (pyUpper (pystrip (strL "GA--+2")))).1.count '-')
  ∧ (parse_note_spec (strL "GA--+2")).2.2.2 = 2 := by
  constructor <;> decide

/-- C6 witness: `GA_K-2` has marker-stripped text `GA-2`, a single-dash
octave-down suffix, giving base `GA` and octave -2. -/
theorem C6_octave_suffix_witness :
    (parse_note_spec (strL "GA_K-2")).1 = strL "GA"
  ∧ (parse_note_spec (strL "GA_K-2")).2.2.2 = -2 := by
  have h := (C6_octave_suffix (strL "GA_K-2") (strL "GA") ['2']).2.1
    (by decide) (by decide) (by decide) (by decide)
  refine ⟨h.1, ?_⟩
  rw [h.2]
  decide

/-! ### Claim C7 -/

set_option maxRecDepth 4000 in
set_option maxHeartbeats 1000000 in
/-- C7: for every text assembled per the documented grammar — a valid
base, an optional single legal modifier, an optional sign-and-digit
octave suffix with in-range value — parsing the text and constructing a
Note from the resulting tuple yields exactly the Note constructed
directly from the corresponding explicit fields (which succeeds), and
rendering the parsed Note yields exactly the directly constructed
Note's rendering. -/
theorem C7_roundtrip : ∀ e ∈ grammarCases,
    mkNote (parse_note_spec e.1).1 (parse_note_spec e.1).2.1
        (parse_note_spec e.1).2.2.1 (parse_note_spec e.1).2.2.2
      = mkNote e.2.1 e.2.2.1 e.2.2.2.1 e.2.2.2.2
  ∧ mkNote e.2.1 e.2.2.1 e.2.2.2.1 e.2.2.2.2
      = Except.ok ⟨e.2.1, e.2.2.1, e.2.2.2.1, e.2.2.2.2⟩
  ∧ renderOfResult (mkNote (parse_note_spec e.1).1 (parse_note_spec e.1).2.1
        (parse_note_spec e.1).2.2.1 (parse_note_spec e.1).2.2.2)
      = some (Note.render ⟨e.2.1, e.2.2.1, e.2.2.2.1, e.2.2.2.2⟩) := by
  decide

/-- C7 witness: the grammar text `MA_T+2`. -/
theorem C7_roundtrip_witness :
    (strL "MA_T+2", strL "MA", false, true, (2 : Int)) ∈ grammarCases
  ∧ renderOfResult (mkNote (parse_note_spec (strL "MA_T+2")).1
        (parse_note_spec (strL "MA_T+2")).2.1 (parse_note_spec (strL "MA_T+2")).2.2.1
        (parse_note_spec (strL "MA_T+2")).2.2.2)
      = some (Note.render ⟨strL "MA", false, true, 2⟩) := by
  refine ⟨by decide, ?_⟩
  exact (C7_roundtrip (strL "MA_T+2", strL "MA", false, true, (2 : Int)) (by decide)).2.2

/-! ### Claim C9 -/

/-- The `parse_sequence` loop keeps exactly the tokens whose
parse-and-construct succeeds, in order. -/
theorem parseSeqGo_eq_filterMap (l : List (List Char)) :
    parseSeqGo l = l.filterMap noteOfToken := by
  induction l with
  | nil => rfl
  | cons p rest ih =>
    by_cases hp : p = []
    · subst hp
      have : noteOfToken ([] : List Char) = none := by decide
      simp [parseSeqGo, this, ih]
    · rcases hm : mkNote (parse_note_spec p).1 (parse_note_spec p).2.1
        (parse_note_spec p).2.2.1 (parse_note_spec p).2.2.2 with e | n
      · have hn : noteOfToken p = none := by simp [noteOfToken, hm, Except.toOption]
        simp [parseSeqGo, hp, hm, hn, ih]
      · have hn : noteOfToken p = some n := by simp [noteOfToken, hm, Except.toOption]
        simp [parseSeqGo, hp, hm, hn, ih]

/-- Splitting only whitespace yields no tokens. -/
theorem splitWsGo_all_space (l : List Char) (h : ∀ c ∈ l, pyIsSpace c = true) :
    splitWsGo [] l = [] := by
  induction l with
  | nil => rfl
  | cons c rest ih =>
    have hc : pyIsSpace c = true := h c (List.mem_cons_self c rest)
    simp [splitWsGo, hc, ih (fun x hx => h x (List.mem_cons_of_mem c hx))]

theorem mem_of_mem_dropWhile {p : Char → Bool} {x : Char} :
    ∀ {l : List Char}, x ∈ l.dropWhile p → x ∈ l := by
  intro l
  induction l with
  | nil => simp [List.dropWhile]
  | cons c rest ih =>
    intro h
    rw [List.dropWhile] at h
    rcases hp : p c with hv | hv
    · rw [hp] at h
      exact h
    · rw [hp] at h
      exact List.mem_cons_of_mem c (ih h)

/-- Every character of the stripped string occurs in the original. -/
theorem mem_of_mem_pystrip {x : Char} {l : List Char} (h : x ∈ pystrip l) : x ∈ l := by
  unfold pystrip at h
  rw [List.mem_reverse] at h
  have h2 := mem_of_mem_dropWhile h
  rw [List.mem_reverse] at h2
  exact mem_of_mem_dropWhile h2

/-- C9: `parse_sequence` splits on whitespace and keeps exactly the
tokens whose parse-and-construct succeeds, in input order, with no
placeholder for skipped tokens; empty or all-whitespace input yields the
empty list. -/
theorem C9_parse_sequence_skips :
    (∀ s, parse_sequence s = (splitWs (pystrip s)).filterMap noteOfToken)
  ∧ (∀ s, (∀ c ∈ s, pyIsSpace c = true) → parse_sequence s = []) := by
  constructor
  · intro s
    exact parseSeqGo_eq_filterMap _
  · intro s hs
    unfold parse_sequence splitWs
    rw [splitWsGo_all_space]
    · rfl
    · exact fun c hc => hs c (mem_of_mem_pystrip hc)

/-- C9 witness: whitespace-only input parses to the empty list. -/
theorem C9_parse_sequence_witness : parse_sequence (strL "   ") = [] :=
  C9_parse_sequence_skips.2 (strL "   ") (by decide)

/-! ### Claim C4: helper lemmas about tokens and the fill loop -/

/-- Every token produced by the splitter is non-empty and
whitespace-free. -/
theorem splitWsGo_tokens : ∀ (l acc : List Char), (∀ c ∈ acc, pyIsSpace c = false) →
    ∀ tk ∈ splitWsGo acc l, tk ≠ [] ∧ ∀ c ∈ tk, pyIsSpace c = false := by
  intro l
  induction l with
  | nil =>
    intro acc hacc tk htk
    unfold splitWsGo at htk
    by_cases ha : acc = []
    · simp [ha] at htk
    · simp [ha] at htk
      subst htk
      refine ⟨by simpa using ha, fun c hc => hacc c (List.mem_reverse.1 hc)⟩
  | cons c rest ih =>
    intro acc hacc tk htk
    unfold splitWsGo at htk
    rcases hc : pyIsSpace c with hv | hv
    · rw [hc] at htk
      simp only [Bool.false_eq_true, if_false] at htk
      have hacc2 : ∀ x ∈ (c :: acc), pyIsSpace x = false := by
        intro x hx
        rcases List.mem_cons.1 hx with rfl | hx2
        · exact hc
        · exact hacc x hx2
      exact ih (c :: acc) hacc2 tk htk
    · rw [hc] at htk
      simp only [if_true] at htk
      by_cases ha : acc = []
      · simp only [ha, if_pos rfl] at htk
        exact ih [] (by simp) tk htk
      · simp only [ha, if_neg ha] at htk
        rcases List.mem_cons.1 htk with rfl | htk2
        · refine ⟨by simpa using ha, fun x hx => hacc x (List.mem_reverse.1 hx)⟩
        · exact ih [] (by simp) tk htk2

theorem splitWs_tokens (l : List Char) :
    ∀ tk ∈ splitWs l, tk ≠ [] ∧ ∀ c ∈ tk, pyIsSpace c = false :=
  splitWsGo_tokens l [] (by simp)

theorem dropWhile_eq_self_of_no_space (l : List Char)
    (h : ∀ c ∈ l, pyIsSpace c = false) : l.dropWhile pyIsSpace = l := by
  cases l with
  | nil => rfl
  | cons c rest =>
    rw [List.dropWhile]
    rw [h c (List.mem_cons_self c rest)]

/-- Stripping a whitespace-free string is the identity. -/
theorem pystrip_of_no_space (l : List Char) (h : ∀ c ∈ l, pyIsSpace c = false) :
    pystrip l = l := by
  unfold pystrip
  rw [dropWhile_eq_self_of_no_space l h]
  rw [dropWhile_eq_self_of_no_space l.reverse (fun c hc => h c (List.mem_reverse.1 hc))]
  exact l.reverse_reverse

/-- Splitting a non-empty whitespace-free string yields that single
token. -/
theorem splitWsGo_no_space : ∀ (l acc : List Char), (∀ c ∈ l, pyIsSpace c = false) →
    (acc ≠ [] ∨ l ≠ []) → splitWsGo acc l = [acc.reverse ++ l] := by
  intro l
  induction l with
  | nil =>
    intro acc _ hne
    have ha : acc ≠ [] := by tauto
    simp [splitWsGo, ha]
  | cons c rest ih =>
    intro acc h _
    have hc : pyIsSpace c = false := h c (List.mem_cons_self c rest)
    have hrest : ∀ x ∈ rest, pyIsSpace x = false := fun x hx => h x (List.mem_cons_of_mem c hx)
    unfold splitWsGo
    rw [hc]
    simp only [Bool.false_eq_true, if_false]
    rw [ih (c :: acc) hrest (Or.inl (by simp))]
    simp

theorem splitWs_single (l : List Char) (hne : l ≠ [])
    (h : ∀ c ∈ l, pyIsSpace c = false) : splitWs l = [l] := by
  unfold splitWs
  rw [splitWsGo_no_space l [] h (Or.inr hne)]
  rfl

/-- Recomputing the rendered cache leaves the swars unchanged. -/
theorem recompute_swars (c : MatraCell) : (MatraCell.recompute c).swars = c.swars := by
  unfold MatraCell.recompute
  split <;> rfl

/-- Assigning a non-empty whitespace-free token makes a cell non-empty. -/
theorem set_swars_token_nonempty (c : MatraCell) (tok : List Char)
    (h1 : tok ≠ []) (h2 : ∀ x ∈ tok, pyIsSpace x = false) :
    (c.set_swars tok).swars ≠ [] := by
  unfold MatraCell.set_swars
  rw [recompute_swars]
  simp only
  rw [pystrip_of_no_space tok h2]
  by_cases hd : tok = strL "-"
  · simp [hd]
  · rw [if_neg hd, if_pos h1, splitWs_single tok h1 h2]
    simp

theorem fillGo_nil_cells (total : Int) : ∀ (parts : List (List Char)) (i : Nat),
    fillGo total i [] parts = [] := by
  intro parts
  induction parts with
  | nil => intro i; rfl
  | cons p ps ih =>
    intro i
    unfold fillGo
    split
    · show fillGo total (i + 1) (setCellAt [] i p) ps = []
      rw [show setCellAt [] i p = [] from by cases i <;> rfl]
      exact ih (i + 1)
    · exact ih (i + 1)

/-- Shifting the fill loop over an untouched head cell. -/
theorem fillGo_shift (total : Int) (parts : List (List Char)) :
    ∀ (i : Nat) (c : MatraCell) (cs : List MatraCell),
      fillGo total (i + 1) (c :: cs) parts = c :: fillGo (total - 1) i cs parts := by
  induction parts with
  | nil => intro i c cs; rfl
  | cons p ps ih =>
    intro i c cs
    show (if ((i + 1 : Nat) : Int) < total
          then fillGo total (i + 1 + 1) (setCellAt (c :: cs) (i + 1) p) ps
          else fillGo total (i + 1 + 1) (c :: cs) ps)
        = c :: (if ((i : Nat) : Int) < total - 1
          then fillGo (total - 1) (i + 1) (setCellAt cs i p) ps
          else fillGo (total - 1) (i + 1) cs ps)
    have hcond : (((i + 1 : Nat) : Int) < total) ↔ (((i : Nat) : Int) < total - 1) := by
      push_cast
      omega
    have hset : setCellAt (c :: cs) (i + 1) p = c :: setCellAt cs i p := rfl
    by_cases h : ((i : Nat) : Int) < total - 1
    · rw [if_pos (hcond.2 h), if_pos h, hset, ih (i + 1)]
    · rw [if_neg (fun hh => h (hcond.1 hh)), if_neg h, ih (i + 1)]

/-- The fill loop writes the tokens into the leading cells in order and
leaves the trailing cells alone. -/
theorem fillGo_zipWith : ∀ (parts : List (List Char)) (total : Int)
    (cells : List MatraCell), ((parts.length : Nat) : Int) ≤ total →
    fillGo total 0 cells parts
      = List.zipWith MatraCell.set_swars cells parts ++ cells.drop parts.length := by
  intro parts
  induction parts with
  | nil => intro total cells _; simp [fillGo]
  | cons p ps ih =>
    intro total cells hlen
    cases cells with
    | nil => simp [fillGo_nil_cells]
    | cons c cs =>
      have hlen2 : ((ps.length : Nat) : Int) + 1 ≤ total := by
        simp only [List.length_cons, Nat.cast_add, Nat.cast_one] at hlen
        omega
      have h0 : ((0 : Nat) : Int) < total := by
        push_cast
        omega
      show (if ((0 : Nat) : Int) < total
            then fillGo total 1 (setCellAt (c :: cs) 0 p) ps
            else fillGo total 1 (c :: cs) ps) = _
      rw [if_pos h0]
      rw [show setCellAt (c :: cs) 0 p = c.set_swars p :: cs from rfl]
      rw [show (1 : Nat) = 0 + 1 from rfl, fillGo_shift]
      rw [ih (total - 1) cs (by omega)]
      simp

/-- Every cell of a cleared grid is empty. -/
theorem clear_grid_all_empty (g : BeatGrid) :
    ∀ c ∈ g.clear_grid.matras, c.swars = [] := by
  intro c hc
  unfold BeatGrid.clear_grid at hc
  simp only at hc
  obtain ⟨c0, _, rfl⟩ := List.mem_map.1 hc
  rfl

theorem filled_count_clear (g : BeatGrid) : g.clear_grid.filled_count = 0 := by
  unfold BeatGrid.filled_count
  rw [List.countP_eq_zero]
  intro c hc
  simp [clear_grid_all_empty g c hc]

/-- Cells holding split tokens all count as filled. -/
theorem countP_zipWith_tokens : ∀ (parts : List (List Char)) (cells : List MatraCell),
    parts.length ≤ cells.length →
    (∀ p ∈ parts, p ≠ [] ∧ ∀ x ∈ p, pyIsSpace x = false) →
    (List.zipWith MatraCell.set_swars cells parts).countP (fun c => !c.swars.isEmpty)
      = parts.length := by
  intro parts
  induction parts with
  | nil => intro cells _ _; simp
  | cons p ps ih =>
    intro cells hlen htok
    cases cells with
    | nil => simp at hlen
    | cons c cs =>
      have hp := htok p (List.mem_cons_self p ps)
      have hne := set_swars_token_nonempty c p hp.1 hp.2
      have hcount : (!(c.set_swars p).swars.isEmpty) = true := by
        rcases hsw : (c.set_swars p).swars with _ | ⟨a, ts⟩
        · exact absurd hsw hne
        · rfl
      simp only [List.zipWith_cons_cons, List.countP_cons, hcount]
      rw [ih cs (by simpa using hlen) (fun q hq => htok q (List.mem_cons_of_mem p hq))]
      simp

/-- Unfolding of `BeatGrid.fill_from_sequence` with its lets inlined. -/
theorem fill_from_sequence_eq (g : BeatGrid) (s : List Char) :
    g.fill_from_sequence s =
      if splitWs (pystrip s) = [] then ((true, strL "Grid cleared"), g.clear_grid)
      else if g.taal.total_matras < ((splitWs (pystrip s)).length : Int) then
        ((false, strL "Too many swars (" ++ pyStrInt ((splitWs (pystrip s)).length : Int)
            ++ strL ") for " ++ g.taal.display_name ++ strL " ("
            ++ pyStrInt g.taal.total_matras ++ strL " matras)"), g.clear_grid)
      else
        ((true, strL "Filled " ++ pyStrInt ((splitWs (pystrip s)).length : Int)
            ++ strL " matras"),
         { g.clear_grid with
             matras := fillGo g.taal.total_matras 0 g.clear_grid.matras
               (splitWs (pystrip s)) }) := rfl

/-- C4: `fill_from_sequence` first clears the whole grid; when the
token count exceeds `total_matras` it fails and the grid stays cleared
(`filled_count = 0`, no partial fill); when the token count fits it
succeeds, assigns the tokens to the leading cells in order leaving the
trailing cells cleared, and afterwards `filled_count` equals the token
count.  (The positivity hypothesis on `total_matras` in the failure
branch holds for every catalog taal; without it an empty input on a
negative-beat-count taal would short-circuit as a trivial success.) -/
theorem C4_fill_from_sequence (g : BeatGrid) (s : List Char) :
    ((g.fill_from_sequence s).2.taal = g.taal)
  ∧ (0 ≤ g.taal.total_matras →
     g.taal.total_matras < (((splitWs (pystrip s)).length : Nat) : Int) →
       (g.fill_from_sequence s).1.1 = false
       ∧ (g.fill_from_sequence s).2 = g.clear_grid
       ∧ (g.fill_from_sequence s).2.filled_count = 0)
  ∧ ((((splitWs (pystrip s)).length : Nat) : Int) ≤ g.taal.total_matras →
       (g.fill_from_sequence s).1.1 = true
       ∧ (g.fill_from_sequence s).2.matras
           = List.zipWith MatraCell.set_swars g.clear_grid.matras (splitWs (pystrip s))
             ++ g.clear_grid.matras.drop (splitWs (pystrip s)).length
       ∧ (((g.matras.length : Nat) : Int) = g.taal.total_matras →
            (g.fill_from_sequence s).2.filled_count = (splitWs (pystrip s)).length)) := by
  rw [fill_from_sequence_eq]
  by_cases hnil : splitWs (pystrip s) = []
  · rw [if_pos hnil]
    refine ⟨rfl, ?_, ?_⟩
    · intro hpos hgt
      rw [hnil] at hgt
      simp at hgt
      omega
    · intro _
      refine ⟨rfl, ?_, ?_⟩
      · simp [hnil]
      · intro _
        rw [hnil]
        exact filled_count_clear g
  · rw [if_neg hnil]
    by_cases hgt : g.taal.total_matras < ((splitWs (pystrip s)).length : Int)
    · rw [if_pos hgt]
      refine ⟨rfl, ?_, ?_⟩
      · intro _ _
        exact ⟨rfl, rfl, filled_count_clear g⟩
      · intro hle
        omega
    · rw [if_neg hgt]
      have hle : (((splitWs (pystrip s)).length : Nat) : Int) ≤ g.taal.total_matras := by
        omega
      refine ⟨rfl, ?_, ?_⟩
      · intro _ h
        omega
      · intro _
        refine ⟨rfl, ?_, ?_⟩
        · exact fillGo_zipWith (splitWs (pystrip s)) g.taal.total_matras
            g.clear_grid.matras hle
        · intro hlen
          unfold BeatGrid.filled_count
          simp only
          rw [fillGo_zipWith (splitWs (pystrip s)) g.taal.total_matras
            g.clear_grid.matras hle]
          rw [List.countP_append]
          have hclen : g.clear_grid.matras.length = g.matras.length := by
            unfold BeatGrid.clear_grid
            simp
          rw [countP_zipWith_tokens (splitWs (pystrip s)) g.clear_grid.matras
            (by rw [hclen]; omega) (splitWs_tokens (pystrip s))]
          have hdrop : (g.clear_grid.matras.drop
              (splitWs (pystrip s)).length).countP (fun c => !c.swars.isEmpty) = 0 := by
            rw [List.countP_eq_zero]
            intro c hc
            simp [clear_grid_all_empty g c (List.mem_of_mem_drop hc)]
          rw [hdrop]
          omega

/-- C4 witness: filling the TeenTaal grid with two tokens succeeds and
fills exactly two cells. -/
theorem C4_fill_from_sequence_witness :
    ((BeatGrid.construct TEENTAAL).fill_from_sequence (strL "SA RE")).1.1 = true
  ∧ ((BeatGrid.construct TEENTAAL).fill_from_sequence (strL "SA RE")).2.filled_count = 2 := by
  have h := (C4_fill_from_sequence (BeatGrid.construct TEENTAAL) (strL "SA RE")).2.2
    (by decide)
  exact ⟨h.1, by rw [h.2.2 (by decide)]; decide⟩

/-! ### Claim C5 -/

/-- Reading back a list after an indexed cell write. -/
theorem setCellAt_getElem? : ∀ (cells : List MatraCell) (i : Nat) (inp : List Char) (j : Nat),
    (setCellAt cells i inp)[j]? =
      if i = j then (cells[j]?).map (fun c => c.set_swars inp) else cells[j]? := by
  intro cells
  induction cells with
  | nil =>
    intro i inp j
    rw [show setCellAt [] i inp = [] from by cases i <;> rfl]
    split <;> rfl
  | cons c cs ih =>
    intro i inp j
    cases i with
    | zero =>
      cases j with
      | zero => simp [setCellAt]
      | succ j => simp [setCellAt]
    | succ i =>
      cases j with
      | zero => simp [setCellAt]
      | succ j =>
        have hstep : (setCellAt (c :: cs) (i + 1) inp)[j + 1]? = (setCellAt cs i inp)[j]? := by
          rw [show setCellAt (c :: cs) (i + 1) inp = c :: setCellAt cs i inp from rfl]
          simp
        rw [hstep, ih i inp j]
        simp only [List.getElem?_cons_succ]
        by_cases h : i = j
        · simp [h]
        · rw [if_neg h, if_neg (fun hh => h (Nat.succ_injective hh))]

/-- `set_swars` is the recompute of the cell holding the claim-described
swars. -/
theorem set_swars_eq (c : MatraCell) (input : List Char) :
    c.set_swars input = MatraCell.recompute { c with swars := swarsSpecC5 input } := rfl

/-- A cell write stores exactly the swars the claim describes. -/
theorem set_swars_swars (c : MatraCell) (input : List Char) :
    (c.set_swars input).swars = swarsSpecC5 input := by
  rw [set_swars_eq, recompute_swars]

/-- The per-token render of the source equals the claim's wording. -/
theorem renderTok_eq_spec : renderTok = renderTokSpecC5 := rfl

/-- A cell write recomputes the rendered cache in the same call,
per-token as the claim describes, joined by single spaces. -/
theorem set_swars_rendered (c : MatraCell) (input : List Char) :
    (c.set_swars input).rendered
      = List.intercalate [' '] ((swarsSpecC5 input).map renderTokSpecC5) := by
  rw [set_swars_eq]
  unfold MatraCell.recompute
  by_cases h : swarsSpecC5 input = []
  · rw [if_pos (show ({ c with swars := swarsSpecC5 input } : MatraCell).swars = [] from h)]
    rw [h]
    rfl
  · rw [if_neg (show ¬({ c with swars := swarsSpecC5 input } : MatraCell).swars = [] from h)]
    rw [← renderTok_eq_spec]

/-- C5: `set_matra_swars` returns a failure indicator and leaves the
whole grid unchanged for a beat outside `[1, total_matras]`; for an
in-range beat it succeeds, changes only that beat's cell, stores `["-"]`
for trimmed `-`, the whitespace-split tokens for non-blank text, the
empty sequence for blank text, and recomputes the rendered cache in the
same call: each continuation token renders as the literal `-`, a token
parsing to at least one note renders as the rendered sequence, a token
parsing to zero notes is kept verbatim, all joined by single spaces. -/
theorem C5_set_cell_swars (g : BeatGrid) (n : Int) (input : List Char) :
    ((n < 1 ∨ g.taal.total_matras < n) → g.set_matra_swars n input = (false, g))
  ∧ (1 ≤ n → n ≤ g.taal.total_matras →
      (g.set_matra_swars n input).1 = true
      ∧ (g.set_matra_swars n input).2.taal = g.taal
      ∧ (∀ j : Nat, j ≠ (n - 1).toNat →
          (g.set_matra_swars n input).2.matras[j]? = g.matras[j]?)
      ∧ ((g.set_matra_swars n input).2.matras[(n - 1).toNat]?
           = (g.matras[(n - 1).toNat]?).map (fun c => c.set_swars input))
      ∧ (∀ c : MatraCell,
          (c.set_swars input).swars = swarsSpecC5 input
          ∧ (c.set_swars input).rendered
              = List.intercalate [' '] ((swarsSpecC5 input).map renderTokSpecC5))) := by
  constructor
  · intro h
    unfold BeatGrid.set_matra_swars
    rw [if_pos h]
  · intro h1 h2
    have hrange : ¬(n < 1 ∨ g.taal.total_matras < n) := by omega
    unfold BeatGrid.set_matra_swars
    rw [if_neg hrange]
    refine ⟨rfl, rfl, ?_, ?_, ?_⟩
    · intro j hj
      show (setCellAt g.matras (n - 1).toNat input)[j]? = g.matras[j]?
      rw [setCellAt_getElem?]
      rw [if_neg (fun hh => hj hh.symm)]
    · show (setCellAt g.matras (n - 1).toNat input)[(n - 1).toNat]? = _
      rw [setCellAt_getElem?]
      rw [if_pos rfl]
    · intro c
      exact ⟨set_swars_swars c input, set_swars_rendered c input⟩

/-- C5 witness: beat 9 of the TeenTaal grid, assigned the continuation
marker (the spec's concrete scenario): success, and the cell renders as
the literal `-`. -/
theorem C5_set_cell_swars_witness :
    ((BeatGrid.construct TEENTAAL).set_matra_swars 9 (strL "-")).1 = true
  ∧ ((BeatGrid.construct TEENTAAL).set_matra_swars 9 (strL "-")).2.matras[8]?
      = ((BeatGrid.construct TEENTAAL).matras[8]?).map (fun c => c.set_swars (strL "-")) := by
  have h := (C5_set_cell_swars (BeatGrid.construct TEENTAAL) 9 (strL "-")).2
    (by decide) (by decide)
  exact ⟨h.1, h.2.2.2.1⟩

/-! ### Claim C10 -/

/-- The per-beat field a cell contributes to the whole-grid rendering. -/
theorem contrib_set_swars_empty (c : MatraCell) :
    (if (c.set_swars []).display = [] then strL "-" else (c.set_swars []).display)
      = strL "-" := rfl

theorem contrib_set_swars_dash (c : MatraCell) :
    (if (c.set_swars (strL "-")).display = [] then strL "-"
     else (c.set_swars (strL "-")).display) = strL "-" := rfl

/-- Two writes whose written cells contribute the same field give the
same mapped contributions. -/
theorem map_setCellAt_congr (f : MatraCell → List Char) (a b : List Char)
    (hf : ∀ c : MatraCell, f (c.set_swars a) = f (c.set_swars b)) :
    ∀ (cells : List MatraCell) (i : Nat),
      (setCellAt cells i a).map f = (setCellAt cells i b).map f := by
  intro cells
  induction cells with
  | nil => intro i; rw [show setCellAt [] i a = [] from by cases i <;> rfl,
                        show setCellAt [] i b = [] from by cases i <;> rfl]
  | cons c cs ih =>
    intro i
    cases i with
    | zero => simp [setCellAt, hf c]
    | succ i => simp [setCellAt, ih i]

/-- C10: for every grid and every in-range beat, the whole-grid
rendering after clearing that cell (`set_matra_swars(beat, "")`) is
identical to the rendering after writing the continuation marker
(`set_matra_swars(beat, "-")`): both cell states contribute the field
`-`, so the whole-grid rendering cannot distinguish them. -/
theorem C10_render_empty_eq_dash (g : BeatGrid) (n : Int)
    (h1 : 1 ≤ n) (h2 : n ≤ g.taal.total_matras) :
    (g.set_matra_swars n []).2.rendered_line
      = (g.set_matra_swars n (strL "-")).2.rendered_line := by
  have hrange : ¬(n < 1 ∨ g.taal.total_matras < n) := by omega
  unfold BeatGrid.set_matra_swars
  rw [if_neg hrange, if_neg hrange]
  unfold BeatGrid.rendered_line
  simp only
  rw [map_setCellAt_congr (fun c => if c.display = [] then strL "-" else c.display)
    [] (strL "-")
    (fun c => (contrib_set_swars_empty c).trans (contrib_set_swars_dash c).symm)]

/-- C10 witness: beat 3 of the TeenTaal grid. -/
theorem C10_render_empty_eq_dash_witness :
    ((BeatGrid.construct TEENTAAL).set_matra_swars 3 []).2.rendered_line
      = ((BeatGrid.construct TEENTAAL).set_matra_swars 3 (strL "-")).2.rendered_line :=
  C10_render_empty_eq_dash (BeatGrid.construct TEENTAAL) 3 (by decide) (by decide)

end SwarScript
